import Mathlib

/-!
Shallow embedding of `esp32-nvs2csv.py`, the ESP32 NVS partition decoder.

Byte buffers are `List Nat` (one element per byte, little-endian multi-byte
fields as in the Python `struct.unpack('<...')` calls).  Python exceptions
are modelled with `Except DecodeErr`; the unbounded `while` loop of
`NVSPage.__init__` is modelled with an explicit fuel parameter, `none`
meaning the loop has not terminated within the given fuel.
-/

set_option maxRecDepth 100000

namespace NVS

/-- Python slice `data[start : start+len]` (clamping at the end of the list). -/
def sliceBytes (data : List Nat) (start len : Nat) : List Nat :=
  (data.drop start).take len

/-- Little-endian value of a byte list, as in `struct.unpack` with `<`. -/
def leNat : List Nat → Nat
  | [] => 0
  | b :: rest => b + 256 * leNat rest

/-- Two's-complement reading of `w`-byte little-endian data
(`<b`, `<h`, `<i`, `<q` formats). -/
def leInt (bs : List Nat) (w : Nat) : Int :=
  let v := leNat bs
  if v < 2 ^ (8 * w - 1) then (v : Int) else (v : Int) - 2 ^ (8 * w)

/-- Python `bytes.rstrip(b'\x00')`: drop all trailing zero bytes. -/
def rstripNulls (l : List Nat) : List Nat :=
  (l.reverse.dropWhile (fun b => b = 0)).reverse

/-- Whether a byte list is valid UTF-8, i.e. whether Python
`bytes.decode('utf-8')` succeeds on it (RFC 3629: no overlong forms, no
surrogates, nothing above U+10FFFF). -/
def utf8Valid : List Nat → Bool
  | [] => true
  | b :: rest =>
    if b < 0x80 then utf8Valid rest
    else if b < 0xC2 then false
    else if b < 0xE0 then
      match rest with
      | c1 :: rest' => (0x80 ≤ c1 && c1 < 0xC0) && utf8Valid rest'
      | [] => false
    else if b < 0xF0 then
      match rest with
      | c1 :: c2 :: rest' =>
        (if b = 0xE0 then 0xA0 ≤ c1 && c1 < 0xC0
         else if b = 0xED then 0x80 ≤ c1 && c1 < 0xA0
         else 0x80 ≤ c1 && c1 < 0xC0)
        && (0x80 ≤ c2 && c2 < 0xC0) && utf8Valid rest'
      | _ => false
    else if b < 0xF5 then
      match rest with
      | c1 :: c2 :: c3 :: rest' =>
        (if b = 0xF0 then 0x90 ≤ c1 && c1 < 0xC0
         else if b = 0xF4 then 0x80 ≤ c1 && c1 < 0x90
         else 0x80 ≤ c1 && c1 < 0xC0)
        && (0x80 ≤ c2 && c2 < 0xC0) && (0x80 ≤ c3 && c3 < 0xC0)
        && utf8Valid rest'
      | _ => false
    else false

/-- The Python exceptions the decoder can raise.  `valueError` is raised by
`NVSDataType(datatype)` / `NVSEntryState(state)` on an unlisted value,
`structError` by `struct.unpack` on a short buffer, `unicodeError` by
`bytes.decode('utf-8')` on invalid UTF-8, `keyError` by
`NVSEntry.namespaces[self.ns]` on a missing key, and `attributeError` by the
`self.dataType.key` accesses in the mismatched-type branches of
`readStrValue` / `readBlobValue` (the attribute is spelled `datatype`). -/
inductive DecodeErr where
  | valueError
  | structError
  | unicodeError
  | keyError
  | attributeError
deriving DecidableEq, Repr

instance {ε α : Type} [DecidableEq ε] [DecidableEq α] : DecidableEq (Except ε α)
  | .error a, .error b =>
    if h : a = b then .isTrue (congrArg Except.error h)
    else .isFalse (fun hh => h (Except.error.inj hh))
  | .error _, .ok _ => .isFalse (fun hh => Except.noConfusion hh)
  | .ok _, .error _ => .isFalse (fun hh => Except.noConfusion hh)
  | .ok a, .ok b =>
    if h : a = b then .isTrue (congrArg Except.ok h)
    else .isFalse (fun hh => h (Except.ok.inj hh))

/-- A decoded NVS value: integer scalar (`.i`), null-trimmed UTF-8 string
bytes (`.s`, for `string` entries after `readStrValue`), or raw blob bytes
(`.b`, rendered by `readBlobValue` as `b'<hex>'`). -/
inductive EVal where
  | i (v : Int)
  | s (bytes : List Nat)
  | b (bytes : List Nat)
deriving DecidableEq, Repr

/-- The fields of `NVSEntry` after `__init__` (and, for its `value`, after
`readStrValue` / `readBlobValue`).  `key` holds the key bytes after
stripping trailing NULs (their UTF-8 decoding is faithfully represented by
the bytes themselves); `state` is the raw 2-bit bitmap state. -/
structure NVSEntry where
  ns : Nat
  datatype : Nat
  span : Nat
  chunkIndex : Nat
  crc : Nat
  dataCrc : Nat
  size : Nat
  key : List Nat
  value : Option EVal
  state : Nat
deriving DecidableEq, Repr

/-- The eleven members of the `NVSDataType` enum. -/
def validTags : List Nat :=
  [0x01, 0x02, 0x04, 0x08, 0x11, 0x12, 0x14, 0x18, 0x21, 0x42, 0x48]

/-- The `match self.datatype` block of `NVSEntry.__init__`, computing the
triple (`size`, `dataCrc`, `value`) from the 8 trailing data bytes.  Each
scalar `struct.unpack` raises `struct.error` when its slice of `data` is
short.  For `string`/`blob_data` the data bytes are `<HHI` =
{size, reserved, dataCrc} and the value stays unset; for `blob_index` they
are `<IH` = {size, chunkCount-as-value}.  The function is only invoked
after `NVSDataType(datatype)` has succeeded, so its `dt` is one of the
eleven tags and the `case _` fallback of the source is unreachable. -/
def parseValue (dt : Nat) (data : List Nat) : Except DecodeErr (Nat × Nat × Option EVal) :=
  if dt = 0x01 then
    if data.length < 1 then .error .structError
    else .ok (1, 0, some (.i (leNat (sliceBytes data 0 1))))
  else if dt = 0x02 then
    if data.length < 2 then .error .structError
    else .ok (2, 0, some (.i (leNat (sliceBytes data 0 2))))
  else if dt = 0x04 then
    if data.length < 4 then .error .structError
    else .ok (4, 0, some (.i (leNat (sliceBytes data 0 4))))
  else if dt = 0x08 then
    if data.length < 8 then .error .structError
    else .ok (8, 0, some (.i (leNat (sliceBytes data 0 8))))
  else if dt = 0x11 then
    if data.length < 1 then .error .structError
    else .ok (1, 0, some (.i (leInt (sliceBytes data 0 1) 1)))
  else if dt = 0x12 then
    if data.length < 2 then .error .structError
    else .ok (2, 0, some (.i (leInt (sliceBytes data 0 2) 2)))
  else if dt = 0x14 then
    if data.length < 4 then .error .structError
    else .ok (4, 0, some (.i (leInt (sliceBytes data 0 4) 4)))
  else if dt = 0x18 then
    if data.length < 8 then .error .structError
    else .ok (8, 0, some (.i (leInt (sliceBytes data 0 8) 8)))
  else if dt = 0x21 then
    if data.length < 8 then .error .structError
    else .ok (leNat (sliceBytes data 0 2), leNat (sliceBytes data 4 4), none)
  else if dt = 0x42 then
    if data.length < 8 then .error .structError
    else .ok (leNat (sliceBytes data 0 2), leNat (sliceBytes data 4 4), none)
  else
    if data.length < 6 then .error .structError
    else .ok (leNat (sliceBytes data 0 4), 0, some (.i (leNat (sliceBytes data 4 2))))

/-- `NVSEntry.__init__(entryData, state)`.  Follows the source order:
`struct.unpack('<BBBBI16s', entryData[0:24])` (raising `struct.error` on a
short slice), then `NVSDataType(datatype)` (raising `ValueError` on an
unrecognized tag — note this makes the `case _` warning branch of the
`match` unreachable), then the key's `rstrip(b'\x00').decode('utf-8')`,
then, for non-Empty states, the per-type `size`/`value` parse. -/
def decodeEntry (ed : List Nat) (state : Nat) : Except DecodeErr NVSEntry :=
  if ed.length < 24 then .error .structError else
  let dt := ed.getD 1 0
  if ¬ dt ∈ validTags then .error .valueError else
  let keyS := rstripNulls (sliceBytes ed 8 16)
  if ¬ utf8Valid keyS then .error .unicodeError else
  let base : NVSEntry :=
    { ns := ed.getD 0 0, datatype := dt, span := ed.getD 2 0,
      chunkIndex := ed.getD 3 0, crc := leNat (sliceBytes ed 4 4),
      dataCrc := 0, size := 0, key := keyS, value := none, state := state }
  if state = 3 then .ok base
  else
    match parseValue dt (sliceBytes ed 24 8) with
    | .error e => .error e
    | .ok (sz, dcrc, v) => .ok { base with size := sz, dataCrc := dcrc, value := v }

/-- `NVSEntry.readStrValue(data)`.  `struct.unpack('<{size}s', data[0:size])`
raises `struct.error` when fewer than `size` bytes remain; the decoded bytes
are stripped of trailing NULs and must be valid UTF-8 (else
`UnicodeDecodeError`).  The `else` branch's f-string accesses the
non-existent attribute `self.dataType`, so it raises `AttributeError`. -/
def readStrValue (e : NVSEntry) (data : List Nat) : Except DecodeErr NVSEntry :=
  if e.datatype = 0x21 then
    if data.length < e.size then .error .structError
    else
      let strp := rstripNulls (data.take e.size)
      if utf8Valid strp then .ok { e with value := some (.s strp) }
      else .error .unicodeError
  else .error .attributeError

/-- `NVSEntry.readBlobValue(data)`.  `data[0:size]` silently truncates at the
end of `data`; the bytes are kept raw (rendered as `b'<hex>'`).  The `else`
branch raises `AttributeError` exactly as in `readStrValue`. -/
def readBlobValue (e : NVSEntry) (data : List Nat) : Except DecodeErr NVSEntry :=
  if e.datatype = 0x42 then .ok { e with value := some (.b (data.take e.size)) }
  else .error .attributeError

/-- The fields of `NVSPage` after `__init__`. -/
structure NVSPage where
  state : Nat
  seqNum : Nat
  version : Nat
  crc : Nat
  entries : List NVSEntry
deriving DecidableEq, Repr

/-- The per-slot 2-bit states unpacked from the 32 bitmap bytes, four slots
per byte, least-significant pair first (the `entryState` list). -/
def entryStates (bitmap : List Nat) : List Nat :=
  bitmap.flatMap (fun b => [b % 4, b / 4 % 4, b / 16 % 4, b / 64 % 4])

/-- One step of this function is one iteration of the
`while entryNum < NVSPage.NUM_ENTRIES` loop of `NVSPage.__init__`, at slot
cursor `n`.  A non-Empty slot is decoded with `decodeEntry` (then
`readStrValue` / `readBlobValue` on the trailing page bytes for
string / blob entries) and the cursor advances by `entry.span`, unclamped;
an Empty slot advances the cursor by 1.  `fuel` bounds the number of
iterations modelled: `none` means the loop has not finished within `fuel`
iterations (so `(∀ fuel, ... = none)` is divergence of the Python loop). -/
def pageLoop (pd stArr : List Nat) : Nat → Nat → Option (Except DecodeErr (List NVSEntry))
  | 0, n => if 126 ≤ n then some (.ok []) else none
  | fuel + 1, n =>
    if 126 ≤ n then some (.ok [])
    else
      let addr := (n + 2) * 32
      if stArr.getD n 0 = 3 then pageLoop pd stArr fuel (n + 1)
      else
        match decodeEntry (sliceBytes pd addr 32) (stArr.getD n 0) with
        | .error e => some (.error e)
        | .ok entry =>
          let read :=
            if entry.datatype = 0x21 then readStrValue entry (pd.drop (addr + 32))
            else if entry.datatype = 0x42 then readBlobValue entry (pd.drop (addr + 32))
            else .ok entry
          match read with
          | .error e => some (.error e)
          | .ok entry2 =>
            match pageLoop pd stArr fuel (n + entry2.span) with
            | none => none
            | some (.error e) => some (.error e)
            | some (.ok rest) => some (.ok (entry2 :: rest))

/-- `NVSPage.__init__(pageData)`: unpack the 32-byte header
(`struct.unpack('<IIB19sI', pageData[0:32])`); if the state is Active
(`0xfffffffe`) or Full (`0xfffffffc`), unpack the 32-byte bitmap and run the
slot walk.  Fuel 126 is exact: a walk whose decoded spans are all ≥ 1
finishes within 126 iterations, and a reached span of 0 diverges at every
fuel. -/
def parsePage (pd : List Nat) : Option (Except DecodeErr NVSPage) :=
  if (sliceBytes pd 0 32).length < 32 then some (.error .structError)
  else
    let state := leNat (sliceBytes pd 0 4)
    let seqNum := leNat (sliceBytes pd 4 4)
    let version := pd.getD 8 0
    let crc := leNat (sliceBytes pd 28 4)
    if state = 0xfffffffe ∨ state = 0xfffffffc then
      if (sliceBytes pd 32 32).length < 32 then some (.error .structError)
      else
        match pageLoop pd (entryStates (sliceBytes pd 32 32)) 126 0 with
        | none => none
        | some (.error e) => some (.error e)
        | some (.ok es) =>
          some (.ok { state := state, seqNum := seqNum, version := version,
                      crc := crc, entries := es })
    else
      some (.ok { state := state, seqNum := seqNum, version := version,
                  crc := crc, entries := [] })

/-- `range(0, len(imageData), NVSPage.PAGE_SIZE)` slicing: the buffer cut
into consecutive 4096-byte windows (the final one possibly shorter).  The
fuel argument is only a structural-recursion bound; `chunkPages` supplies
one ample for any buffer. -/
def chunkPagesAux : Nat → List Nat → List (List Nat)
  | 0, _ => []
  | fuel + 1, buf =>
    if buf.isEmpty then []
    else buf.take 4096 :: chunkPagesAux fuel (buf.drop 4096)

def chunkPages (buf : List Nat) : List (List Nat) :=
  chunkPagesAux (buf.length + 1) buf

/-- Whether `extractNVSEntries` keeps the page
(`page.state == Active or page.state == Full`). -/
def keepPage (pg : NVSPage) : Bool :=
  pg.state = 0xfffffffe || pg.state = 0xfffffffc

/-- The page-parsing loop of `extractNVSEntries` over the page windows:
parse each window in physical order, keeping Active/Full pages.  An
exception from any page aborts the whole scan; `none` propagates
divergence. -/
def parsePagesList : List (List Nat) → Option (Except DecodeErr (List NVSPage))
  | [] => some (.ok [])
  | pd :: rest =>
    match parsePage pd with
    | none => none
    | some (.error e) => some (.error e)
    | some (.ok pg) =>
      match parsePagesList rest with
      | none => none
      | some (.error e) => some (.error e)
      | some (.ok pgs) => some (.ok (if keepPage pg then pg :: pgs else pgs))

def parsePartition (buf : List Nat) : Option (Except DecodeErr (List NVSPage)) :=
  parsePagesList (chunkPages buf)

/-- The ordering key of `pages.sort(key=attrgetter('seqNum'))`. -/
def seqLE (a b : NVSPage) : Prop := a.seqNum ≤ b.seqNum

instance : DecidableRel seqLE := fun a b => Nat.decLe a.seqNum b.seqNum

instance : IsTotal NVSPage seqLE := ⟨fun a b => Nat.le_total a.seqNum b.seqNum⟩

instance : IsTrans NVSPage seqLE := ⟨fun _ _ _ hab hbc => Nat.le_trans hab hbc⟩

/-- `pages.sort(key=attrgetter('seqNum'))`.  Python's `list.sort` is stable,
and a stable sort by key is uniquely determined by its input, so insertion
sort with the non-strict key order (which places an element before exactly
those later elements with a strictly greater key) computes the same list as
CPython's Timsort. -/
def sortPages (ps : List NVSPage) : List NVSPage :=
  List.insertionSort seqLE ps

/-- The namespace table `NVSEntry.namespaces`, a Python dict whose keys are
the `value` attribute at `__init__` time (an int for scalar and blob-index
entries, `None` for string/blob entries whose value is filled in later) and
whose values are key names.  Modelled extensionally as a lookup function. -/
def NsMap : Type := Option Int → Option (List Nat)

/-- The bytes of the seed name "Namespace". -/
def nsSeedName : List Nat := [78, 97, 109, 101, 115, 112, 97, 99, 101]

/-- The class-level initializer `namespaces = {0 : "Namespace"}`. -/
def initNamespaces : NsMap :=
  fun k => if k = some 0 then some nsSeedName else none

/-- `dict.update({k : v})`. -/
def nsUpdate (m : NsMap) (k : Option Int) (v : List Nat) : NsMap :=
  fun k' => if k' = k then some v else m k'

def applyUpdates (us : List (Option Int × List Nat)) (m : NsMap) : NsMap :=
  us.foldl (fun acc kv => nsUpdate acc kv.1 kv.2) m

/-- The binding an update sequence leaves for key `k` (the last update of
`k` wins, matching repeated `dict.update`). -/
def lookupUpd : List (Option Int × List Nat) → Option Int → Option (List Nat)
  | [], _ => none
  | kv :: t, k =>
    match lookupUpd t k with
    | some r => some r
    | none => if k = kv.1 then some kv.2 else none

/-- The key under which a namespace-defining entry updates the table: its
`value` attribute at `__init__` time — an integer for every scalar and for
`blob_index` (whose value is the chunk count), and Python `None` for
`string`/`blob_data`, whose value is still unset when the update runs. -/
def initNsKey (e : NVSEntry) : Option Int :=
  if e.datatype = 0x21 ∨ e.datatype = 0x42 then none
  else match e.value with
       | some (.i v) => some v
       | _ => none

/-- The update `NVSEntry.namespaces.update({self.value : self.key})`
performed by `__init__` when `state != Empty` and `ns == 0`. -/
def nsUpdOf (e : NVSEntry) : Option (Option Int × List Nat) :=
  if e.state ≠ 3 ∧ e.ns = 0 then some (initNsKey e, e.key) else none

/-- All namespace-table updates performed while parsing the partition, in
physical page order then slot order (parsing happens before sorting). -/
def nsUpdatesOf (pages : List NVSPage) : List (Option Int × List Nat) :=
  pages.flatMap (fun pg => pg.entries.filterMap nsUpdOf)

/-- One output CSV row, `str(entry)` =
`state.name,datatype.name,size,namespaces[ns],key,value`.  The state,
datatype, size, key and value determine their rendered text, so the record
keeps them structured; `nsName` is the resolved namespace name. -/
structure OutRecord where
  state : Nat
  datatype : Nat
  size : Nat
  nsName : List Nat
  key : List Nat
  value : Option EVal
deriving DecidableEq, Repr

/-- `NVSEntry.__str__` under namespace table `m`:
`NVSEntryState(self.state)` raises `ValueError` unless the state is
Erased/Written/Empty (0/2/3), and `NVSEntry.namespaces[self.ns]` raises
`KeyError` when the id has no binding.  There is no placeholder fallback. -/
def renderEntry (m : NsMap) (e : NVSEntry) : Except DecodeErr OutRecord :=
  if e.state = 0 ∨ e.state = 2 ∨ e.state = 3 then
    match m (some (e.ns : Int)) with
    | none => .error .keyError
    | some nm => .ok { state := e.state, datatype := e.datatype, size := e.size,
                       nsName := nm, key := e.key, value := e.value }
  else .error .valueError

def renderAll (m : NsMap) : List NVSEntry → Except DecodeErr (List OutRecord)
  | [] => .ok []
  | e :: es =>
    match renderEntry m e with
    | .error err => .error err
    | .ok r =>
      match renderAll m es with
      | .error err => .error err
      | .ok rs => .ok (r :: rs)

/-- The output-filter of `extractNVSEntries`:
`(printWritten and state == Written) or (printErased and state == Erased)`. -/
def passesFilter (pw pe : Bool) (e : NVSEntry) : Bool :=
  (pw && e.state = 2) || (pe && e.state = 0)

/-- One bit step of the reflected CRC-32 (polynomial `0xEDB88320`). -/
def crc32Bit (c : Nat) : Nat :=
  if c % 2 = 1 then Nat.xor (c / 2) 0xEDB88320 else c / 2

def crc32Bits : Nat → Nat → Nat
  | 0, c => c
  | n + 1, c => crc32Bits n (crc32Bit c)

def crc32Update (c b : Nat) : Nat := crc32Bits 8 (Nat.xor c (b % 256))

/-- Modelled from the spec: the repository has no Checksum Verifier — the
source never computes any CRC — so this is §4.1's
`crc32(bytes) -> u32 using the standard reflected CRC32 polynomial`
(initial value `0xFFFFFFFF`, final complement). -/
def crc32 (bs : List Nat) : Nat :=
  Nat.xor (bs.foldl crc32Update 0xFFFFFFFF) 0xFFFFFFFF

/-- Modelled from the spec: the byte range §3 says the page `headerCrc`
covers — `sequence number + version + reserved bytes, excludes the state
field itself`, i.e. bytes 4..27 of the page. -/
def headerCrcBytes (pd : List Nat) : List Nat := sliceBytes pd 4 24

/-- Modelled from the spec: the byte range §3 says the entry `crc` covers —
`the fixed 24-byte entry metadata, not the trailing payload`, excluding the
stored CRC field itself (bytes 0..3 and 8..27 of the slot). -/
def entryCrcBytes (ed : List Nat) : List Nat :=
  sliceBytes ed 0 4 ++ sliceBytes ed 8 20

/-- The full scan `extractNVSEntries` as a function of the partition bytes,
the namespace table `m0` the process starts with (`initNamespaces` on a
fresh interpreter; whatever the class attribute holds on a repeated run),
and the two output flags.  Returns the emitted record sequence together
with the namespace table the class attribute holds afterwards;
`none` = divergence, `.error` = uncaught exception. -/
def runScan (m0 : NsMap) (buf : List Nat) (pw pe : Bool) :
    Option (Except DecodeErr (List OutRecord × NsMap)) :=
  match parsePartition buf with
  | none => none
  | some (.error e) => some (.error e)
  | some (.ok pages) =>
    let m1 := applyUpdates (nsUpdatesOf pages) m0
    let es := ((sortPages pages).flatMap (fun pg => pg.entries)).filter (passesFilter pw pe)
    match renderAll m1 es with
    | .error e => some (.error e)
    | .ok recs => some (.ok (recs, m1))

/-! ### Concrete inputs used by the counterexamples and witnesses -/

/-- A well-formed Written `uint8_t` entry slot: namespace 1, tag `0x01`,
span 1, chunkIndex `0xff`, stored CRC field 0, key `"A"`, value 7. -/
def okEntry : List Nat :=
  [1, 1, 1, 0xff] ++ [0, 0, 0, 0] ++ ([65] ++ List.replicate 15 0)
  ++ ([7] ++ List.replicate 7 0)

/-- `decodeEntry okEntry 2`. -/
def okParsed : NVSEntry :=
  { ns := 1, datatype := 1, span := 1, chunkIndex := 255, crc := 0, dataCrc := 0,
    size := 1, key := [65], value := some (.i 7), state := 2 }

/-- An entry slot identical to `okEntry` except its `dataType` byte is the
unrecognized tag `0x03`. -/
def badTagEntry : List Nat :=
  [1, 3, 1, 0xff] ++ [0, 0, 0, 0] ++ ([65] ++ List.replicate 15 0)
  ++ ([7] ++ List.replicate 7 0)

/-- An Active page (truncated after its first used slot; all further slots
Empty) whose single Written slot stores a `uint8_t` entry with span byte 0:
header (state Active, seq 1), bitmap marking slot 0 Written, entry bytes. -/
def spanZeroPage : List Nat :=
  ([0xfe, 0xff, 0xff, 0xff] ++ [1, 0, 0, 0] ++ [0xff] ++ List.replicate 19 0
    ++ [0, 0, 0, 0])
  ++ ([0xfe] ++ List.replicate 31 0xff)
  ++ ([1, 1, 0, 0xff] ++ [0, 0, 0, 0] ++ ([66] ++ List.replicate 15 0)
    ++ ([7] ++ List.replicate 7 0))

/-- An Active page whose slot 0 carries the invalid bitmap state 1 over an
entry with span 2, and whose slot 1 is marked Written with its own entry
(bitmap byte `0xf9` = states 1, 2, 3, 3). -/
def stateOnePage : List Nat :=
  ([0xfe, 0xff, 0xff, 0xff] ++ [1, 0, 0, 0] ++ [0xff] ++ List.replicate 19 0
    ++ [0, 0, 0, 0])
  ++ ([0xf9] ++ List.replicate 31 0xff)
  ++ ([1, 1, 2, 0xff] ++ [0, 0, 0, 0] ++ ([67] ++ List.replicate 15 0)
    ++ ([5] ++ List.replicate 7 0))
  ++ ([1, 1, 1, 0xff] ++ [0, 0, 0, 0] ++ ([68] ++ List.replicate 15 0)
    ++ ([9] ++ List.replicate 7 0))

/-- The entry `parsePage stateOnePage` decodes from the state-1 slot. -/
def stateOneEntry : NVSEntry :=
  { ns := 1, datatype := 1, span := 2, chunkIndex := 255, crc := 0,
    dataCrc := 0, size := 1, key := [67], value := some (.i 5), state := 1 }

/-- `parsePage stateOnePage` succeeds with this page: one entry, carrying
bitmap state 1 and span 2; the Written entry at slot 1 was skipped. -/
def stateOneParsed : NVSPage :=
  { state := 0xfffffffe, seqNum := 1, version := 255, crc := 0,
    entries := [stateOneEntry] }

/-- An Active page whose slot 0 is a Written `string` entry with a stored
payload size of 100 bytes while only 64 payload bytes remain on the page
(the partition ends here, so the page slice
`imageData[pageAddr : pageAddr + 4096]` is 160 bytes long). -/
def oversizePage : List Nat :=
  ([0xfe, 0xff, 0xff, 0xff] ++ [1, 0, 0, 0] ++ [0xff] ++ List.replicate 19 0
    ++ [0, 0, 0, 0])
  ++ ([0xfe] ++ List.replicate 31 0xff)
  ++ ([1, 0x21, 4, 0xff] ++ [0, 0, 0, 0] ++ ([69] ++ List.replicate 15 0)
    ++ ([100, 0, 0, 0] ++ [0, 0, 0, 0]))
  ++ List.replicate 64 0x41

/-- A `string` entry header as produced by `decodeEntry` (size 3, value not
yet read). -/
def strEntry : NVSEntry :=
  { ns := 1, datatype := 0x21, span := 2, chunkIndex := 0xff, crc := 0,
    dataCrc := 0, size := 3, key := [65], value := none, state := 2 }

/-- A Written entry referencing namespace id 5, which no scan has defined. -/
def ns5Entry : NVSEntry :=
  { ns := 5, datatype := 1, span := 1, chunkIndex := 0xff, crc := 0, dataCrc := 0,
    size := 1, key := [65], value := some (.i 7), state := 2 }

/-- A fully erased page: 32 bytes of `0xff` (header state = Empty sentinel
`0xffffffff`). -/
def emptyPage : List Nat := List.replicate 32 0xff

/-- `parsePage emptyPage`. -/
def emptyParsed : NVSPage :=
  { state := 0xffffffff, seqNum := 0xffffffff, version := 255, crc := 0xffffffff,
    entries := [] }

/-- A Full page (seq 2) holding a namespace-definition entry
(ns 0, key `"wifi"`, value 1) at slot 0 and a `uint8_t` entry in that
namespace (ns 1, key `"k"`, value 42) at slot 1. -/
def happyPage : List Nat :=
  ([0xfe, 0xff, 0xff, 0xff] ++ [2, 0, 0, 0] ++ [0xff] ++ List.replicate 19 0
    ++ [0, 0, 0, 0])
  ++ ([0xfa] ++ List.replicate 31 0xff)
  ++ ([0, 1, 1, 0xff] ++ [0, 0, 0, 0]
    ++ ([0x77, 0x69, 0x66, 0x69] ++ List.replicate 12 0)
    ++ ([1] ++ List.replicate 7 0))
  ++ ([1, 1, 1, 0xff] ++ [0, 0, 0, 0] ++ ([0x6b] ++ List.replicate 15 0)
    ++ ([42] ++ List.replicate 7 0))

/-- The records `runScan initNamespaces happyPage true false` emits: the
namespace-defining entry renders under the seed name "Namespace", the
ordinary entry under the freshly bound name "wifi". -/
def happyRecs : List OutRecord :=
  [{ state := 2, datatype := 1, size := 1, nsName := nsSeedName,
     key := [0x77, 0x69, 0x66, 0x69], value := some (.i 1) },
   { state := 2, datatype := 1, size := 1, nsName := [0x77, 0x69, 0x66, 0x69],
     key := [0x6b], value := some (.i 42) }]

/-- The table state after scanning `happyPage`: the seed plus the binding
1 ↦ "wifi" discovered in slot 0. -/
def happyNsAfter : NsMap :=
  applyUpdates [(some 1, [0x77, 0x69, 0x66, 0x69])] initNamespaces

/-- The 24 bytes of `okEntry` after its namespace/type/span/chunk prefix
and CRC field: the key bytes and the 8 data bytes. -/
def okRest : List Nat :=
  ([65] ++ List.replicate 15 0) ++ ([7] ++ List.replicate 7 0)

/-- `parsePage happyPage`. -/
def happyParsed : NVSPage :=
  { state := 0xfffffffe, seqNum := 2, version := 255, crc := 0,
    entries := [{ ns := 0, datatype := 1, span := 1, chunkIndex := 255, crc := 0,
                  dataCrc := 0, size := 1, key := [0x77, 0x69, 0x66, 0x69],
                  value := some (.i 1), state := 2 },
                { ns := 1, datatype := 1, span := 1, chunkIndex := 255, crc := 0,
                  dataCrc := 0, size := 1, key := [0x6b], value := some (.i 42),
                  state := 2 }] }

/-- A page with sequence number 5 (physically first). -/
def pageSeq5 : NVSPage :=
  { state := 0xfffffffe, seqNum := 5, version := 1, crc := 0,
    entries := [okParsed] }

/-- A page with sequence number 2 (physically second). -/
def pageSeq2 : NVSPage :=
  { state := 0xfffffffc, seqNum := 2, version := 1, crc := 0,
    entries := [{ okParsed with key := [66], value := some (.i 9) }] }

/-! ### Helper lemmas -/

theorem rstripNulls_sublist (l : List Nat) : (rstripNulls l).Sublist l := by
  have h1 : (l.reverse.dropWhile (fun b => b = 0)).Sublist l.reverse :=
    List.dropWhile_sublist _
  have h2 := h1.reverse
  simpa [rstripNulls] using h2

theorem parseValue_ok_value (dt : Nat) (data : List Nat) (sz dcrc : Nat)
    (v : Option EVal) (h : parseValue dt data = .ok (sz, dcrc, v)) :
    v = none ∨ ∃ i, v = some (.i i) := by
  delta parseValue at h
  by_cases hd0 : dt = 1
  · rw [if_pos hd0] at h
    by_cases hl0 : data.length < 1
    · rw [if_pos hl0] at h
      exact Except.noConfusion h
    · rw [if_neg hl0] at h
      cases Except.ok.inj h
      exact Or.inr ⟨_, rfl⟩
  · rw [if_neg hd0] at h
    by_cases hd1 : dt = 2
    · rw [if_pos hd1] at h
      by_cases hl1 : data.length < 2
      · rw [if_pos hl1] at h
        exact Except.noConfusion h
      · rw [if_neg hl1] at h
        cases Except.ok.inj h
        exact Or.inr ⟨_, rfl⟩
    · rw [if_neg hd1] at h
      by_cases hd2 : dt = 4
      · rw [if_pos hd2] at h
        by_cases hl2 : data.length < 4
        · rw [if_pos hl2] at h
          exact Except.noConfusion h
        · rw [if_neg hl2] at h
          cases Except.ok.inj h
          exact Or.inr ⟨_, rfl⟩
      · rw [if_neg hd2] at h
        by_cases hd3 : dt = 8
        · rw [if_pos hd3] at h
          by_cases hl3 : data.length < 8
          · rw [if_pos hl3] at h
            exact Except.noConfusion h
          · rw [if_neg hl3] at h
            cases Except.ok.inj h
            exact Or.inr ⟨_, rfl⟩
        · rw [if_neg hd3] at h
          by_cases hd4 : dt = 17
          · rw [if_pos hd4] at h
            by_cases hl4 : data.length < 1
            · rw [if_pos hl4] at h
              exact Except.noConfusion h
            · rw [if_neg hl4] at h
              cases Except.ok.inj h
              exact Or.inr ⟨_, rfl⟩
          · rw [if_neg hd4] at h
            by_cases hd5 : dt = 18
            · rw [if_pos hd5] at h
              by_cases hl5 : data.length < 2
              · rw [if_pos hl5] at h
                exact Except.noConfusion h
              · rw [if_neg hl5] at h
                cases Except.ok.inj h
                exact Or.inr ⟨_, rfl⟩
            · rw [if_neg hd5] at h
              by_cases hd6 : dt = 20
              · rw [if_pos hd6] at h
                by_cases hl6 : data.length < 4
                · rw [if_pos hl6] at h
                  exact Except.noConfusion h
                · rw [if_neg hl6] at h
                  cases Except.ok.inj h
                  exact Or.inr ⟨_, rfl⟩
              · rw [if_neg hd6] at h
                by_cases hd7 : dt = 24
                · rw [if_pos hd7] at h
                  by_cases hl7 : data.length < 8
                  · rw [if_pos hl7] at h
                    exact Except.noConfusion h
                  · rw [if_neg hl7] at h
                    cases Except.ok.inj h
                    exact Or.inr ⟨_, rfl⟩
                · rw [if_neg hd7] at h
                  by_cases hd8 : dt = 33
                  · rw [if_pos hd8] at h
                    by_cases hl8 : data.length < 8
                    · rw [if_pos hl8] at h
                      exact Except.noConfusion h
                    · rw [if_neg hl8] at h
                      cases Except.ok.inj h
                      exact Or.inl rfl
                  · rw [if_neg hd8] at h
                    by_cases hd9 : dt = 66
                    · rw [if_pos hd9] at h
                      by_cases hl9 : data.length < 8
                      · rw [if_pos hl9] at h
                        exact Except.noConfusion h
                      · rw [if_neg hl9] at h
                        cases Except.ok.inj h
                        exact Or.inl rfl
                    · rw [if_neg hd9] at h
                      by_cases hlE : data.length < 6
                      · rw [if_pos hlE] at h
                        exact Except.noConfusion h
                      · rw [if_neg hlE] at h
                        cases Except.ok.inj h
                        exact Or.inr ⟨_, rfl⟩

theorem decodeEntry_ok_value (ed : List Nat) (st : Nat) (e : NVSEntry)
    (h : decodeEntry ed st = .ok e) :
    e.value = none ∨ ∃ i, e.value = some (.i i) := by
  delta decodeEntry at h
  dsimp only [] at h
  split at h
  · exact Except.noConfusion h
  · split at h
    · exact Except.noConfusion h
    · split at h
      · exact Except.noConfusion h
      · split at h
        · cases Except.ok.inj h
          exact Or.inl rfl
        · split at h
          · exact Except.noConfusion h
          · rename_i sz dcrc v hpv
            cases Except.ok.inj h
            simpa using parseValue_ok_value _ _ _ _ _ hpv

theorem readStrValue_ok (e e2 : NVSEntry) (data : List Nat)
    (h : readStrValue e data = .ok e2) :
    e2 = { e with value := some (.s (rstripNulls (data.take e.size))) } := by
  delta readStrValue at h
  dsimp only [] at h
  split at h
  · split at h
    · exact Except.noConfusion h
    · split at h
      · exact (Except.ok.inj h).symm
      · exact Except.noConfusion h
  · exact Except.noConfusion h

theorem readBlobValue_ok (e e2 : NVSEntry) (data : List Nat)
    (h : readBlobValue e data = .ok e2) :
    e2 = { e with value := some (.b (data.take e.size)) } := by
  delta readBlobValue at h
  split at h
  · exact (Except.ok.inj h).symm
  · exact Except.noConfusion h

theorem renderEntry_ok_state (m : NsMap) (e : NVSEntry) (r : OutRecord)
    (h : renderEntry m e = .ok r) : r.state = e.state := by
  delta renderEntry at h
  split at h
  · split at h
    · exact Except.noConfusion h
    · cases Except.ok.inj h
      rfl
  · exact Except.noConfusion h

theorem renderAll_mem_state (m : NsMap) (es : List NVSEntry)
    (rs : List OutRecord) (h : renderAll m es = .ok rs) :
    ∀ r ∈ rs, ∃ e ∈ es, r.state = e.state := by
  induction es generalizing rs with
  | nil =>
    cases Except.ok.inj h
    intro r hr
    exact absurd hr (List.not_mem_nil r)
  | cons e t ih =>
    rw [renderAll] at h
    split at h
    · exact Except.noConfusion h
    · rename_i r0 hr0
      split at h
      · exact Except.noConfusion h
      · rename_i rs0 hrs0
        cases Except.ok.inj h
        intro r hr
        rcases List.mem_cons.mp hr with rfl | hmem
        · exact ⟨e, List.mem_cons_self e t, renderEntry_ok_state m e r hr0⟩
        · obtain ⟨e2, he2, hst⟩ := ih rs0 hrs0 r hmem
          exact ⟨e2, List.mem_cons_of_mem e he2, hst⟩

/-! ### Claims -/

/-- C1: the slot walk of `NVSPage.__init__` does NOT clamp the span: on an
Active page whose live slot stores span byte 0, `entryNum += entry.span`
adds 0 and the `while entryNum < 126` loop never advances.  The loop fails
to finish within any number of iterations (`pageLoop … fuel 0 = none` for
every fuel), i.e. the Python scan hangs; `parsePage` (fuel 126, exact for
all terminating walks) reports the divergence.  This refutes the claimed
"span clamped to a minimum of 1" termination guarantee: the code has no
clamp and does not terminate on this input. -/
theorem c1_span_zero_loops_forever :
    (∀ pd st n e, n < 126 → st.getD n 0 ≠ 3 →
       decodeEntry (sliceBytes pd ((n + 2) * 32) 32) (st.getD n 0) = .ok e →
       e.datatype ≠ 0x21 → e.datatype ≠ 0x42 → e.span = 0 →
       ∀ fuel, pageLoop pd st fuel n = none)
    ∧ (∀ fuel, pageLoop spanZeroPage (entryStates (sliceBytes spanZeroPage 32 32)) fuel 0 = none)
    ∧ parsePage spanZeroPage = none := by
  have hgen : ∀ pd st n e, n < 126 → st.getD n 0 ≠ 3 →
      decodeEntry (sliceBytes pd ((n + 2) * 32) 32) (st.getD n 0) = .ok e →
      e.datatype ≠ 0x21 → e.datatype ≠ 0x42 → e.span = 0 →
      ∀ fuel, pageLoop pd st fuel n = none := by
    intro pd st n e hn hst hdec hs hb hspan fuel
    induction fuel with
    | zero =>
      simp only [pageLoop]
      rw [if_neg (by omega)]
    | succ f ih =>
      simp only [pageLoop]
      rw [if_neg (by omega), if_neg hst, hdec]
      simp only [if_neg hs, if_neg hb]
      rw [hspan, Nat.add_zero, ih]
  refine ⟨hgen, ?_, ?_⟩
  · exact hgen spanZeroPage (entryStates (sliceBytes spanZeroPage 32 32)) 0
      { ns := 1, datatype := 1, span := 0, chunkIndex := 255, crc := 0, dataCrc := 0,
        size := 1, key := [66], value := some (.i 7), state := 2 }
      (by omega) (by decide) (by decide) (by decide) (by decide) (by decide)
  · decide

/-- Witness for C1's hypotheses: the Python loop on `spanZeroPage` is still
running after 999 iterations. -/
theorem c1_span_zero_witness :
    pageLoop spanZeroPage (entryStates (sliceBytes spanZeroPage 32 32)) 999 0 = none :=
  c1_span_zero_loops_forever.1 spanZeroPage
    (entryStates (sliceBytes spanZeroPage 32 32)) 0
    { ns := 1, datatype := 1, span := 0, chunkIndex := 255, crc := 0, dataCrc := 0,
      size := 1, key := [66], value := some (.i 7), state := 2 }
    (by omega) (by decide) (by decide) (by decide) (by decide) (by decide) 999

/-- C3 counterexample: rendering an entry whose namespace id 5 has no
binding in the table (here: the scan-initial table, which only binds id 0)
raises `KeyError` — there is no placeholder fallback, so namespace lookup
does produce a failure. -/
theorem c3_undefined_namespace_keyerror :
    renderEntry initNamespaces ns5Entry = .error .keyError := by decide

/-- C3 amended: `NVSEntry.__str__` resolves the namespace by a plain dict
access.  A bound id (id 0 is pre-seeded with "Namespace", and updates never
remove bindings, so any id once defined stays resolvable) renders to its
name; an id with no binding raises `KeyError` instead of falling back to a
placeholder. -/
theorem c3_namespace_lookup_no_fallback :
    (∀ (m : NsMap) (e : NVSEntry) (nm : List Nat),
       (e.state = 0 ∨ e.state = 2 ∨ e.state = 3) → m (some (e.ns : Int)) = some nm →
       renderEntry m e = .ok { state := e.state, datatype := e.datatype,
                               size := e.size, nsName := nm, key := e.key,
                               value := e.value })
    ∧ (∀ (m : NsMap) (e : NVSEntry),
       (e.state = 0 ∨ e.state = 2 ∨ e.state = 3) → m (some (e.ns : Int)) = none →
       renderEntry m e = .error .keyError)
    ∧ (∀ us (m : NsMap) k v, m k = some v → ∃ w, applyUpdates us m k = some w)
    ∧ initNamespaces (some 0) = some nsSeedName := by
  refine ⟨?_, ?_, ?_, by decide⟩
  · intro m e nm hs hm
    simp only [renderEntry]
    rw [if_pos hs, hm]
  · intro m e hs hm
    simp only [renderEntry]
    rw [if_pos hs, hm]
  · intro us
    induction us with
    | nil => intro m k v hm; exact ⟨v, hm⟩
    | cons kv t ih =>
      intro m k v hm
      show ∃ w, applyUpdates t (nsUpdate m kv.1 kv.2) k = some w
      by_cases hk : k = kv.1
      · exact ih (nsUpdate m kv.1 kv.2) k kv.2 (by simp [nsUpdate, hk])
      · exact ih (nsUpdate m kv.1 kv.2) k v (by simp [nsUpdate, hk, hm])

/-- Witness for C3's hypotheses: an entry with namespace id 0 renders under
the pre-seeded name "Namespace". -/
theorem c3_namespace_lookup_witness :
    renderEntry initNamespaces { ns5Entry with ns := 0 } =
      .ok { state := 2, datatype := 1, size := 1, nsName := nsSeedName,
            key := [65], value := some (.i 7) } :=
  c3_namespace_lookup_no_fallback.1 initNamespaces { ns5Entry with ns := 0 }
    nsSeedName (Or.inr (Or.inl rfl)) (by decide)

/-- C6 counterexample: a `string` entry whose 3 payload bytes
`ff fe 41` are not valid UTF-8 makes `readStrValue` raise
`UnicodeDecodeError` (aborting the scan) instead of falling back to a
`b'<hex>'` rendering. -/
theorem c6_invalid_utf8_raises :
    readStrValue strEntry ([0xff, 0xfe, 0x41] ++ List.replicate 29 0) =
      .error .unicodeError := by decide

/-- C6 amended: `readStrValue` null-trims the payload and decodes it as
UTF-8 — succeeding exactly when the bytes are valid UTF-8, and raising
`UnicodeDecodeError` otherwise, with no fallback; the raw-byte `b'<hex>'`
rendering is produced only by `readBlobValue` for `blob_data` entries. -/
theorem c6_string_decode_no_fallback :
    (∀ e data, e.datatype = 0x21 → ¬ data.length < e.size →
       utf8Valid (rstripNulls (data.take e.size)) = true →
       readStrValue e data =
         .ok { e with value := some (.s (rstripNulls (data.take e.size))) })
    ∧ (∀ e data, e.datatype = 0x21 → ¬ data.length < e.size →
       utf8Valid (rstripNulls (data.take e.size)) = false →
       readStrValue e data = .error .unicodeError)
    ∧ (∀ e data, e.datatype = 0x42 →
       readBlobValue e data = .ok { e with value := some (.b (data.take e.size)) }) := by
  refine ⟨?_, ?_, ?_⟩
  · intro e data hdt hlen hv
    simp only [readStrValue]
    rw [if_pos hdt, if_neg hlen, if_pos hv]
  · intro e data hdt hlen hv
    simp only [readStrValue]
    rw [if_pos hdt, if_neg hlen, if_neg (by rw [hv]; exact Bool.false_ne_true)]
  · intro e data hdt
    simp only [readBlobValue]
    rw [if_pos hdt]

/-- Witness for C6's hypotheses: a valid-UTF-8 payload decodes to its text. -/
theorem c6_string_decode_witness :
    readStrValue strEntry [65, 66, 67] =
      .ok { strEntry with value := some (.s [65, 66, 67]) } :=
  c6_string_decode_no_fallback.1 strEntry [65, 66, 67] rfl (by decide) (by decide)

/-- C2: a non-empty slot with the unrecognized `dataType` tag `0x03` makes
`NVSEntry.__init__` raise `ValueError` at `NVSDataType(datatype)` (line
101), a fatal error that aborts the scan.  The warn-and-continue branch
(`case _`, lines 151–155) is unreachable, so no warning is emitted, no
entry with `size = 0` is produced, and decoding does not continue. -/
theorem c2_unknown_tag_raises_valueerror :
    decodeEntry badTagEntry 2 = .error .valueError := by decide

/-- C7 counterexample: on `stateOnePage`, whose slot 0 has the invalid
2-bit state 1 and span byte 2, the page decoder does NOT skip exactly one
slot and emit nothing: it decodes a full entry from the slot (state 1,
span 2) into the page's entry list, advances the cursor by 2 (the Written
entry at slot 1 is consumed, not decoded), and emits no warning. -/
theorem c7_state_one_slot_is_decoded :
    parsePage stateOnePage = some (.ok stateOneParsed)
    ∧ stateOneParsed.entries = [stateOneEntry]
    ∧ stateOneEntry.state = 1 ∧ stateOneEntry.span = 2 := by decide

/-- C8: a page whose header state is neither Active (`0xfffffffe`) nor Full
(`0xfffffffc`) — the Empty sentinel included — parses without error to a
page with an empty entry list, and `extractNVSEntries` never retains such a
page, so it contributes zero entries to the output regardless of its bitmap
and entry bytes. -/
theorem c8_inactive_pages_contribute_nothing :
    (∀ pd pg, parsePage pd = some (.ok pg) →
       pg.state ≠ 0xfffffffe → pg.state ≠ 0xfffffffc →
       pg.entries = [] ∧ keepPage pg = false)
    ∧ (∀ pds pages pg, parsePagesList pds = some (.ok pages) → pg ∈ pages →
       keepPage pg = true) := by
  constructor
  · intro pd pg h h1 h2
    simp only [parsePage] at h
    split at h
    · simp at h
    · split at h
      · rename_i hstate
        split at h
        · simp at h
        · split at h <;> simp_all
          rename_i hloop
          obtain rfl := h
          rcases hstate with hs | hs
          · exact absurd hs h1
          · exact absurd hs h2
      · rename_i hstate
        simp only [Option.some.injEq, Except.ok.injEq] at h
        obtain rfl := h
        push_neg at hstate
        refine ⟨rfl, ?_⟩
        simp [keepPage, hstate.1, hstate.2]
  · intro pds
    induction pds with
    | nil =>
      intro pages pg h hm
      simp only [parsePagesList, Option.some.injEq, Except.ok.injEq] at h
      subst h
      simp at hm
    | cons pd rest ih =>
      intro pages pg h hm
      simp only [parsePagesList] at h
      cases hpp : parsePage pd with
      | none => rw [hpp] at h; simp at h
      | some x =>
        rw [hpp] at h
        cases x with
        | error e => simp at h
        | ok pg0 =>
          cases hrest : parsePagesList rest with
          | none => rw [hrest] at h; simp at h
          | some y =>
            rw [hrest] at h
            cases y with
            | error e => simp at h
            | ok pgs =>
              simp only [Option.some.injEq, Except.ok.injEq] at h
              subst h
              by_cases hk : keepPage pg0
              · rw [if_pos hk] at hm
                rcases List.mem_cons.mp hm with rfl | hmem
                · exact hk
                · exact ih pgs pg hrest hmem
              · rw [if_neg hk] at hm
                exact ih pgs pg hrest hm

/-- Witness for C8's hypotheses: the all-`0xff` (fully erased) page parses
to the Empty-state page with no entries and is not retained. -/
theorem c8_inactive_witness :
    parsePage emptyPage = some (.ok emptyParsed)
    ∧ emptyParsed.entries = [] ∧ keepPage emptyParsed = false :=
  ⟨by decide,
   c8_inactive_pages_contribute_nothing.1 emptyPage emptyParsed (by decide)
     (by decide) (by decide)⟩

/-- C7 amended: the page decoder does not special-case the invalid 2-bit
state 1 — a state-1 slot is decoded exactly like a live slot (an entry is
appended to the page's entry list and the cursor advances by its span,
possibly consuming several slots), with no warning; however the
Written/Erased output filter of `extractNVSEntries` excludes state 1, so no
record derived from such a slot ever reaches the output. -/
theorem c7_state_one_never_reaches_output :
    (∀ pw pe (e : NVSEntry), e.state = 1 → passesFilter pw pe e = false)
    ∧ (∀ (m0 : NsMap) buf pw pe recs m1,
       runScan m0 buf pw pe = some (.ok (recs, m1)) →
       ∀ r ∈ recs, r.state ≠ 1) := by
  have hfilter : ∀ pw pe (e : NVSEntry), e.state = 1 → passesFilter pw pe e = false := by
    intro pw pe e hst
    simp [passesFilter, hst]
  refine ⟨hfilter, ?_⟩
  intro m0 buf pw pe recs m1 h r hr
  delta runScan at h
  split at h
  · exact Option.noConfusion h
  · exact Except.noConfusion (Option.some.inj h)
  · rename_i pages hpages
    dsimp only [] at h
    split at h
    · exact Except.noConfusion (Option.some.inj h)
    · rename_i recs0 hrecs0
      obtain ⟨rfl, rfl⟩ := Prod.mk.injEq .. ▸ Except.ok.inj (Option.some.inj h)
      obtain ⟨e, he, hst⟩ := renderAll_mem_state _ _ _ hrecs0 r hr
      intro hr1
      have hpass := List.of_mem_filter he
      have : passesFilter pw pe e = false := hfilter pw pe e (by omega)
      rw [this] at hpass
      exact Bool.false_ne_true hpass

/-- Witness for C7's hypotheses: scanning `happyPage` succeeds, and its two
emitted records both carry the Written state, not 1. -/
theorem c7_state_one_witness :
    runScan initNamespaces happyPage true false = some (.ok (happyRecs, happyNsAfter))
    ∧ OutRecord.state { state := 2, datatype := 1, size := 1, nsName := nsSeedName,
                        key := [0x77, 0x69, 0x66, 0x69], value := some (.i 1) } ≠ 1 :=
  ⟨rfl,
   c7_state_one_never_reaches_output.2 initNamespaces happyPage true false
     happyRecs happyNsAfter rfl _ (by simp [happyRecs])⟩

/-- C9 counterexample: on `oversizePage` — a full 4096-byte Active page
whose Written `string` entry claims a 5000-byte payload, larger than the
page has left — the decoder does not warn-and-stop for that page: the
`struct.unpack` inside `readStrValue` raises `struct.error`, and the whole
partition scan aborts with that exception. -/
theorem c9_oversize_aborts_scan :
    parsePage oversizePage = some (.error .structError)
    ∧ runScan initNamespaces oversizePage true false = some (.error .structError) :=
  ⟨by decide, rfl⟩

/-- C9 amended: a `string` payload extending past the page's remaining
bytes makes `readStrValue` raise `struct.error` (a fatal exception, not a
warning, and it aborts the whole scan, not just the page); a `blob_data`
payload is silently truncated at the end of the page with no warning; and
in both cases the payload bytes of every entry a page walk produces are
drawn from that page's own bytes (a sublist of `pd`), never from adjacent
pages. -/
theorem c9_payloads_confined_to_page :
    (∀ (e : NVSEntry) data, e.datatype = 0x21 → data.length < e.size →
       readStrValue e data = .error .structError)
    ∧ (∀ (e : NVSEntry) data, e.datatype = 0x42 →
       readBlobValue e data = .ok { e with value := some (.b (data.take e.size)) }
       ∧ (data.take e.size).length ≤ data.length)
    ∧ (∀ pd stArr fuel n es, pageLoop pd stArr fuel n = some (.ok es) →
       ∀ e ∈ es, ∀ bs, (e.value = some (.s bs) → bs.Sublist pd)
         ∧ (e.value = some (.b bs) → bs.Sublist pd)) := by
  refine ⟨?_, ?_, ?_⟩
  · intro e data hdt hlen
    delta readStrValue
    rw [if_pos hdt, if_pos hlen]
  · intro e data hdt
    refine ⟨?_, ?_⟩
    · delta readBlobValue
      rw [if_pos hdt]
    · rw [List.length_take]
      omega
  · intro pd stArr fuel
    induction fuel with
    | zero =>
      intro n es h
      rw [pageLoop] at h
      split at h
      · cases Except.ok.inj (Option.some.inj h)
        intro e he
        exact absurd he (List.not_mem_nil e)
      · exact Option.noConfusion h
    | succ f ih =>
      intro n es h
      rw [pageLoop] at h
      split at h
      · cases Except.ok.inj (Option.some.inj h)
        intro e he
        exact absurd he (List.not_mem_nil e)
      · split at h
        · exact ih _ _ h
        · rename_i hne
          dsimp only [] at h
          split at h
          · exact Except.noConfusion (Option.some.inj h)
          · rename_i entry hentry
            split at h
            · exact Except.noConfusion (Option.some.inj h)
            · rename_i entry2 hread
              split at h
              · exact Option.noConfusion h
              · exact Except.noConfusion (Option.some.inj h)
              · rename_i rest hrest
                cases Except.ok.inj (Option.some.inj h)
                intro e he bs
                rcases List.mem_cons.mp he with rfl | hmem
                · by_cases hs : entry.datatype = 0x21
                  · rw [if_pos hs] at hread
                    obtain rfl := readStrValue_ok _ _ _ hread
                    constructor
                    · intro hv
                      obtain rfl : rstripNulls
                          ((pd.drop ((n + 2) * 32 + 32)).take entry.size) = bs := by
                        simpa using hv
                      exact ((rstripNulls_sublist _).trans
                        (List.take_sublist _ _)).trans (List.drop_sublist _ _)
                    · intro hv
                      simp at hv
                  · rw [if_neg hs] at hread
                    by_cases hb : entry.datatype = 0x42
                    · rw [if_pos hb] at hread
                      obtain rfl := readBlobValue_ok _ _ _ hread
                      constructor
                      · intro hv
                        simp at hv
                      · intro hv
                        obtain rfl : (pd.drop ((n + 2) * 32 + 32)).take entry.size = bs := by
                          simpa using hv
                        exact (List.take_sublist _ _).trans (List.drop_sublist _ _)
                    · rw [if_neg hb] at hread
                      obtain rfl := Except.ok.inj hread
                      rcases decodeEntry_ok_value _ _ _ hentry with hv0 | ⟨i, hv0⟩
                      · rw [hv0]
                        exact ⟨fun hv => absurd hv (by simp),
                               fun hv => absurd hv (by simp)⟩
                      · rw [hv0]
                        exact ⟨fun hv => absurd hv (by simp),
                               fun hv => absurd hv (by simp)⟩
                · exact ih _ _ hrest e hmem bs

/-- Witness for C9's hypotheses: the oversize string entry of
`oversizePage` hits the fatal `struct.error` branch, and a blob read
truncates at the page end. -/
theorem c9_payloads_witness :
    readStrValue strEntry [] = .error .structError :=
  c9_payloads_confined_to_page.1 strEntry [] rfl (by decide)

theorem filter_orderedInsert (a : NVSPage) (s : List NVSPage) (n : Nat) :
    (List.orderedInsert seqLE a s).filter (fun p => p.seqNum == n) =
      if a.seqNum = n then a :: s.filter (fun p => p.seqNum == n)
      else s.filter (fun p => p.seqNum == n) := by
  induction s with
  | nil =>
    by_cases h : a.seqNum = n <;> simp [List.orderedInsert, List.filter_cons, h]
  | cons b t ih =>
    rw [List.orderedInsert]
    by_cases hab : seqLE a b
    · rw [if_pos hab]
      by_cases h : a.seqNum = n <;> simp [List.filter_cons, h]
    · rw [if_neg hab]
      by_cases h : a.seqNum = n
      · have hbn : ¬ b.seqNum = n := by
          intro hb
          exact hab (by simp [seqLE, h, hb])
        simp [List.filter_cons, hbn, h, ih]
      · simp [List.filter_cons, h, ih]

theorem filter_sortPages (ps : List NVSPage) (n : Nat) :
    (sortPages ps).filter (fun p => p.seqNum == n) =
      ps.filter (fun p => p.seqNum == n) := by
  induction ps with
  | nil => rfl
  | cons p t ih =>
    simp only [sortPages] at ih
    show (List.orderedInsert seqLE p (List.insertionSort seqLE t)).filter _ = _
    rw [filter_orderedInsert]
    by_cases h : p.seqNum = n <;> simp [List.filter_cons, h, ih]

theorem applyUpdates_apply (us : List (Option Int × List Nat)) (m : NsMap)
    (k : Option Int) :
    applyUpdates us m k =
      match lookupUpd us k with
      | some v => some v
      | none => m k := by
  induction us generalizing m with
  | nil => rfl
  | cons kv t ih =>
    show applyUpdates t (nsUpdate m kv.1 kv.2) k = _
    rw [ih, lookupUpd]
    cases hl : lookupUpd t k with
    | some r => simp [hl]
    | none =>
      by_cases hk : k = kv.1 <;> simp [hl, nsUpdate, hk]

theorem applyUpdates_idem (us : List (Option Int × List Nat)) (m : NsMap) :
    applyUpdates us (applyUpdates us m) = applyUpdates us m := by
  funext k
  cases hl : lookupUpd us k <;>
    simp [applyUpdates_apply, hl]

/-- C10: re-running the scan on the same buffer is deterministic.  The only
cross-run state is the class-level namespace dict: a completed first run
leaves it at `m1`, and because re-applying the same update sequence is
idempotent and the parse itself does not read the dict, a second run from
`m1` emits byte-for-byte the same records (same namespace resolution
included) and leaves the dict at `m1` again. -/
theorem c10_rescan_deterministic :
    ∀ (m0 : NsMap) (buf : List Nat) (pw pe : Bool) (recs : List OutRecord) (m1 : NsMap),
      runScan m0 buf pw pe = some (.ok (recs, m1)) →
      runScan m1 buf pw pe = some (.ok (recs, m1)) := by
  intro m0 buf pw pe recs m1 h
  delta runScan at h
  split at h
  · exact Option.noConfusion h
  · exact Except.noConfusion (Option.some.inj h)
  · rename_i pages hpages
    dsimp only [] at h
    split at h
    · exact Except.noConfusion (Option.some.inj h)
    · rename_i recs0 hrecs0
      have h2 := Except.ok.inj (Option.some.inj h)
      obtain ⟨rfl, rfl⟩ : recs0 = recs ∧ applyUpdates (nsUpdatesOf pages) m0 = m1 :=
        ⟨congrArg Prod.fst h2, congrArg Prod.snd h2⟩
      delta runScan
      rw [hpages]
      dsimp only []
      rw [applyUpdates_idem, hrecs0]

/-- C4 amended: `NVSEntry.__init__` never validates the entry CRC — the
decode result is entirely independent of the 4 stored CRC bytes, except
that they are parsed into the `crc` field: replacing them changes nothing
else, produces no warning and no error. -/
theorem c4_decode_independent_of_crc :
    ∀ (p c c2 rest : List Nat) (st : Nat),
      p.length = 4 → c.length = 4 → c2.length = 4 →
      decodeEntry (p ++ c ++ rest) st =
        (decodeEntry (p ++ c2 ++ rest) st).map (fun e => { e with crc := leNat c }) := by
  intro p c c2 rest st hp hc hc2
  have hget : ∀ (x : List Nat) (i : Nat), x.length = 4 → i < 4 →
      (p ++ x ++ rest).getD i 0 = p.getD i 0 := by
    intro x i hx hi
    rw [List.getD_append _ _ _ _ (show i < (p ++ x).length by simp only [List.length_append, hp, hx]; omega),
        List.getD_append _ _ _ _ (show i < p.length by rw [hp]; exact hi)]
  have hlen : ∀ x : List Nat, x.length = 4 →
      (p ++ x ++ rest).length = 8 + rest.length := by
    intro x hx
    rw [List.length_append, List.length_append, hp, hx]
  have hcrc : ∀ x : List Nat, x.length = 4 → sliceBytes (p ++ x ++ rest) 4 4 = x := by
    intro x hx
    show (((p ++ x) ++ rest).drop 4).take 4 = x
    rw [List.append_assoc, List.drop_left' hp, List.take_left' hx]
  have hkey : ∀ x : List Nat, x.length = 4 →
      sliceBytes (p ++ x ++ rest) 8 16 = rest.take 16 := by
    intro x hx
    show (((p ++ x) ++ rest).drop 8).take 16 = rest.take 16
    rw [List.drop_left' (show (p ++ x).length = 8 by simp [hp, hx])]
  have hdata : ∀ x : List Nat, x.length = 4 →
      sliceBytes (p ++ x ++ rest) 24 8 = sliceBytes rest 16 8 := by
    intro x hx
    show (((p ++ x) ++ rest).drop 24).take 8 = (rest.drop 16).take 8
    rw [show (24 : Nat) = 8 + 16 from rfl, ← List.drop_drop,
        List.drop_left' (show (p ++ x).length = 8 by simp [hp, hx])]
  have key : ∀ x : List Nat, x.length = 4 →
      decodeEntry (p ++ x ++ rest) st =
        (if 8 + rest.length < 24 then Except.error DecodeErr.structError
         else if ¬ (p.getD 1 0) ∈ validTags then Except.error DecodeErr.valueError
         else if ¬ utf8Valid (rstripNulls (rest.take 16)) then
           Except.error DecodeErr.unicodeError
         else if st = 3 then
           Except.ok { ns := p.getD 0 0, datatype := p.getD 1 0, span := p.getD 2 0,
                       chunkIndex := p.getD 3 0, crc := leNat x, dataCrc := 0,
                       size := 0, key := rstripNulls (rest.take 16), value := none,
                       state := st }
         else
           match parseValue (p.getD 1 0) (sliceBytes rest 16 8) with
           | .error e => .error e
           | .ok (sz, dcrc, v) =>
             Except.ok { ns := p.getD 0 0, datatype := p.getD 1 0, span := p.getD 2 0,
                         chunkIndex := p.getD 3 0, crc := leNat x, dataCrc := dcrc,
                         size := sz, key := rstripNulls (rest.take 16), value := v,
                         state := st }) := by
    intro x hx
    delta decodeEntry
    rw [hlen x hx, hget x 0 hx (by omega), hget x 1 hx (by omega),
        hget x 2 hx (by omega), hget x 3 hx (by omega), hcrc x hx, hkey x hx,
        hdata x hx]
  rw [key c hc, key c2 hc2]
  by_cases h1 : 8 + rest.length < 24
  · rw [if_pos h1, if_pos h1]; rfl
  · rw [if_neg h1, if_neg h1]
    by_cases h2 : ¬ (p.getD 1 0) ∈ validTags
    · rw [if_pos h2, if_pos h2]; rfl
    · rw [if_neg h2, if_neg h2]
      by_cases h3 : ¬ utf8Valid (rstripNulls (rest.take 16))
      · rw [if_pos h3, if_pos h3]; rfl
      · rw [if_neg h3, if_neg h3]
        by_cases h4 : st = 3
        · rw [if_pos h4, if_pos h4]; rfl
        · rw [if_neg h4, if_neg h4]
          cases parseValue (p.getD 1 0) (sliceBytes rest 16 8) with
          | error e => rfl
          | ok tri =>
            obtain ⟨sz, dcrc, v⟩ := tri
            rfl

/-- C5: retained pages are sorted by ascending `seqNum` (Python's stable
`list.sort`, modelled by stable insertion sort): the sorted list is
pairwise ordered, pages with equal `seqNum` keep their original physical
order (the filter at any sequence number is unchanged), and in the claim's
concrete scenario — seq 5 physically before seq 2 — the flattened record
stream emits all of page 2's entries before page 5's. -/
theorem c5_output_ordered_by_seqnum :
    (∀ ps : List NVSPage, List.Pairwise seqLE (sortPages ps))
    ∧ (∀ (ps : List NVSPage) (n : Nat),
       (sortPages ps).filter (fun p => p.seqNum == n) =
         ps.filter (fun p => p.seqNum == n))
    ∧ (∀ p q : NVSPage, p.seqNum = 5 → q.seqNum = 2 →
       (sortPages [p, q]).flatMap (fun pg => pg.entries) = q.entries ++ p.entries) := by
  refine ⟨?_, filter_sortPages, ?_⟩
  · intro ps
    exact List.sorted_insertionSort seqLE ps
  · intro p q hp hq
    have hnot : ¬ seqLE p q := by simp [seqLE, hp, hq]
    simp [sortPages, List.insertionSort, List.orderedInsert, hnot]

/-- Witness for C10's hypotheses: scanning `happyPage` once succeeds, and by
the theorem a rescan from the resulting namespace table is identical. -/
theorem c10_rescan_witness :
    runScan happyNsAfter happyPage true false =
      some (.ok (happyRecs, happyNsAfter)) :=
  c10_rescan_deterministic initNamespaces happyPage true false happyRecs
    happyNsAfter rfl

/-- C4 counterexample: the stored CRC fields of `okEntry` (entry) and
`happyPage` (page header) are 0, which does not match the CRC32 computed
over the bytes the spec says they cover — yet both decode successfully,
with the entry's value reported and nothing attached to the result that
marks the mismatch. -/
theorem c4_crc_mismatch_goes_unnoticed :
    decodeEntry okEntry 2 = .ok okParsed
    ∧ crc32 (entryCrcBytes okEntry) ≠ okParsed.crc
    ∧ okParsed.value = some (.i 7)
    ∧ parsePage happyPage = some (.ok happyParsed)
    ∧ crc32 (headerCrcBytes happyPage) ≠ happyParsed.crc := by
  refine ⟨by decide, by decide, by decide, by decide, by decide⟩

/-- Witness for C4's hypotheses: the CRC-bytes-independence theorem applied
to `okEntry`'s prefix and trailing bytes, with the stored CRC field `0`
replaced by `9 9 9 9`. -/
theorem c4_crc_witness :
    decodeEntry ([1, 1, 1, 0xff] ++ [0, 0, 0, 0] ++ okRest) 2 =
      (decodeEntry ([1, 1, 1, 0xff] ++ [9, 9, 9, 9] ++ okRest) 2).map
        (fun e => { e with crc := leNat [0, 0, 0, 0] }) :=
  c4_decode_independent_of_crc [1, 1, 1, 0xff] [0, 0, 0, 0] [9, 9, 9, 9] okRest 2
    rfl rfl rfl

/-- Witness for C5's hypotheses: for the concrete pages `pageSeq5`
(physically first) and `pageSeq2`, the emitted entry stream puts page 2's
entries first. -/
theorem c5_ordering_witness :
    (sortPages [pageSeq5, pageSeq2]).flatMap (fun pg => pg.entries) =
      pageSeq2.entries ++ pageSeq5.entries :=
  c5_output_ordered_by_seqnum.2.2 pageSeq5 pageSeq2 rfl rfl

end NVS
